import Mathlib

/-!
Shallow embedding of the adaptive-grid cross-section evaluator and
resolution-smearing convolution engine of `Analysis/spectrum.py`, together
with the concrete cross-section models `XSecTwoHDM` (`Analysis/twohdm.py`)
and `XSecVLQ` (`Analysis/scan_VLQ.py`).

Modelling conventions:
* Python floats are modelled as exact rationals (`ℚ`).
* The transcendental library primitives used by the code (`math.exp`,
  `math.log`, `math.sqrt`, `math.erf`, `math.pi`, `math.asin`) are opaque
  to the algorithms under study; they are collected in an environment
  record `Env` of unconstrained rational-valued functions, so every
  theorem below holds for an arbitrary interpretation of them.
* Fallible Python code (raising exceptions) is modelled with `Option` or
  `Except PyErr`.
* The unbounded `while` loop of `RecoMtt.build_xsec_grid` is modelled
  with explicit fuel; `none` signals either exhaustion of the fuel or an
  exception escaping from the evaluated function.
-/

namespace Spectrum

/-- Opaque numeric primitives from Python's `math`/float library, treated as
parameters of the embedding.  All theorems hold for every interpretation. -/
structure Env where
  exp : ℚ → ℚ
  log : ℚ → ℚ
  sqrt : ℚ → ℚ
  erf : ℚ → ℚ
  asin : ℚ → ℚ
  pi : ℚ

/-- Python exceptions raised by the code under study. -/
inductive PyErr
  | notImplementedError (msg : String)
  | runtimeError (msg : String)
  | attributeError (msg : String)
  deriving DecidableEq

/-- Python's built-in `round` (banker's rounding: ties go to the even
integer), as used in `build_xsec_grid` for the seed-point count. -/
def pyRound (q : ℚ) : ℤ :=
  let f := ⌊q⌋
  let r := q - f
  if r < 1 / 2 then f
  else if 1 / 2 < r then f + 1
  else if f % 2 = 0 then f else f + 1

/-- `np.linspace a b n`: `n` evenly spaced samples from `a` to `b`,
endpoints included. -/
def linspace (a b : ℚ) (n : ℕ) : List ℚ :=
  (List.range n).map (fun i : ℕ => a + (i : ℚ) * ((b - a) / ((n : ℚ) - 1)))

/-- Python's `max` over a list (no NaN is representable in `ℚ`, so a plain
fold suffices; the empty case never arises in the code under study). -/
def listMax : List ℚ → ℚ
  | [] => 0
  | x :: xs => xs.foldl max x

/-- Python's `min` over a list. -/
def listMin : List ℚ → ℚ
  | [] => 0
  | x :: xs => xs.foldl min x

/-- `np.polyval coeffs x`: Horner evaluation, highest coefficient first. -/
def polyval (coeffs : List ℚ) (x : ℚ) : ℚ :=
  coeffs.foldl (fun acc c => acc * x + c) 0

/-- `np.searchsorted(xs, v, side='left')` on a sorted list: the index of the
first element that is not smaller than `v`. -/
def bisectLeft (xs : List ℚ) (v : ℚ) : ℕ :=
  (xs.takeWhile (fun x => decide (x < v))).length

/-- `np.searchsorted(xs, v, side='right')` on a sorted list: the index of the
first element strictly greater than `v`. -/
def bisectRight (xs : List ℚ) (v : ℚ) : ℕ :=
  (xs.takeWhile (fun x => decide (x ≤ v))).length

/-- The refinement loop of `RecoMtt.build_xsec_grid` (spectrum.py lines
330-353).  The Python loop walks an index `i` over a growing list; here the
already-accepted prefix is peeled off by recursion, `p0 :: p1 :: rest` being
the part of the list from position `i` on.  Evaluating the function at the
segment midpoint happens before the acceptance test, exactly as in the
source.  `none` means the fuel ran out or `f` raised. -/
def refine (f : ℚ → Option ℚ) (tolerance : ℚ) : ℕ → List (ℚ × ℚ) → Option (List (ℚ × ℚ))
  | 0, l =>
      match l with
      | [] => some []
      | [p] => some [p]
      | _ :: _ :: _ => none
  | fuel + 1, l =>
      match l with
      | [] => some []
      | [p] => some [p]
      | p0 :: p1 :: rest => do
          let mean_mtt := (p0.1 + p1.1) / 2
          let xsec_mean_mtt ← f mean_mtt
          let deviation := |xsec_mean_mtt - (p0.2 + p1.2) / 2|
          if tolerance < |p1.2 - p0.2| ∨ tolerance / 2 < deviation then
            refine f tolerance fuel (p0 :: (mean_mtt, xsec_mean_mtt) :: p1 :: rest)
          else
            (refine f tolerance fuel (p1 :: rest)).map (p0 :: ·)

/-- Number of seed points of `build_xsec_grid`
(`max(100, round((2000 - 340) / var_scale))`). -/
def numPoints (var_scale : ℚ) : ℕ :=
  max 100 (pyRound ((2000 - 340) / var_scale)).toNat

/-- `RecoMtt.build_xsec_grid` (spectrum.py lines 315-355) as a function of
the sampled cross section `f`: seed a uniform grid over the fixed domain
`(340, 2000)`, compute the tolerance from the span of the seed samples, and
refine.  The Python code keeps two parallel lists `mtt_values` /
`xsec_values`; they are modelled as one list of pairs. -/
def buildXsecGridFn (f : ℚ → Option ℚ) (rel_tolerance var_scale : ℚ) (fuel : ℕ) :
    Option (List (ℚ × ℚ)) := do
  let mtt_values := linspace 340 2000 (numPoints var_scale)
  let pts ← mtt_values.mapM (fun x => (f x).map (fun y => (x, y)))
  let tolerance := rel_tolerance * (listMax (pts.map Prod.snd) - listMin (pts.map Prod.snd))
  refine f tolerance fuel pts

/-- Helper for `basicSimps`: `p0` is the left node of the current pair of
intervals, the list holds the remaining nodes. -/
def basicSimpsAux (p0 : ℚ × ℚ) : List (ℚ × ℚ) → ℚ
  | p1 :: p2 :: rest =>
      let h0 := p1.1 - p0.1
      let h1 := p2.1 - p1.1
      let hsum := h0 + h1
      let hprod := h0 * h1
      let h0divh1 := h0 / h1
      hsum / 6 * (p0.2 * (2 - 1 / h0divh1) + p1.2 * (hsum * hsum / hprod)
          + p2.2 * (2 - h0divh1))
        + basicSimpsAux p2 rest
  | _ => 0

/-- The core of `scipy.integrate.simps` on possibly irregularly spaced
nodes: the generalized Simpson formula summed over consecutive pairs of
intervals (two intervals are consumed per step).  `pts` is the list of
`(x, y)` samples; a trailing lone interval (even sample count) contributes
nothing here. -/
def basicSimps : List (ℚ × ℚ) → ℚ
  | p0 :: tail => basicSimpsAux p0 tail
  | [] => 0

/-- Trapezoid correction over the last interval, used by `simps` when the
number of samples is even (`even='first'` or `'avg'`). -/
def trapLast (pts : List (ℚ × ℚ)) : ℚ :=
  match pts.reverse with
  | (x1, y1) :: (x0, y0) :: _ => (x1 - x0) * (y1 + y0) / 2
  | _ => 0

/-- Trapezoid correction over the first interval, used by `simps` with
`even='last'` or `'avg'`. -/
def trapFirst (pts : List (ℚ × ℚ)) : ℚ :=
  match pts with
  | (x0, y0) :: (x1, y1) :: _ => (x1 - x0) * (y1 + y0) / 2
  | _ => 0

/-- The `even=` parameter of `scipy.integrate.simps`. -/
inductive SimpsEven
  | first
  | last
  | avg

/-- `scipy.integrate.simps(y, x, even)`: pure Simpson for an odd number of
samples; for an even number, Simpson on all but one boundary interval plus a
trapezoid there, the boundary chosen (or averaged) per the `even` flag. -/
def pySimps (pts : List (ℚ × ℚ)) (even : SimpsEven) : ℚ :=
  if pts.length % 2 = 1 then basicSimps pts
  else
    match even with
    | SimpsEven.first => basicSimps pts.dropLast + trapLast pts
    | SimpsEven.last => basicSimps pts.tail + trapFirst pts
    | SimpsEven.avg =>
        (basicSimps pts.dropLast + trapLast pts + basicSimps pts.tail + trapFirst pts) / 2

/-- `scipy.interpolate.interp1d(xs, ys, bounds_error=False, fill_value=0)`
over the samples `pts`, evaluated at `v`: `0` outside the sampled domain,
otherwise linear interpolation on the bracketing interval found by binary
search (clipped exactly as scipy clips its `searchsorted` result). -/
def interp1dZero (pts : List (ℚ × ℚ)) (v : ℚ) : ℚ :=
  match pts.head?, pts.getLast? with
  | some pfirst, some plast =>
      if v < pfirst.1 ∨ plast.1 < v then 0
      else
        let idx := min (max (bisectLeft (pts.map Prod.fst) v) 1) (pts.length - 1)
        match pts.get? (idx - 1), pts.get? idx with
        | some plo, some phi =>
            (phi.2 - plo.2) / (phi.1 - plo.1) * (v - plo.1) + plo.2
        | _, _ => 0
  | _, _ => 0

/-! ### The `PartonXSec` interface (spectrum.py lines 21-235) -/

/-- Class attribute `PartonXSec.mt`: mass of the top quark, GeV. -/
def mt : ℚ := 173

/-- Class attribute `PartonXSec.gF`: Fermi constant, GeV^(-2). -/
def gF : ℚ := 1.166390e-5

/-- CP state of the Higgs boson; the source passes the strings `'A'` and
`'H'` (any other string raises, cf. `PartonXSec._check_cp`). -/
inductive CP
  | A
  | H
  deriving DecidableEq

/-- The capability a concrete cross-section model provides to `RecoMtt`:
the two cross-section components (fallible, `none` = a Python exception
escapes) and the `var_scale_` attribute set by `PartonXSec.__init__` /
overwritten by subclass initializers. -/
structure PartonXSecModel where
  xsec_res : ℚ → ℚ → Option ℚ
  xsec_int : ℚ → ℚ → Option ℚ
  var_scale_ : Option ℚ

namespace PartonXSec

/-- `PartonXSec.beta`: velocity of each top quark. -/
def beta (env : Env) (s : ℚ) : ℚ :=
  env.sqrt (1 - 4 * mt ^ 2 / s)

/-- `PartonXSec.to_pb`: conversion from GeV^(-2) to pb. -/
def to_pb (xsec : ℚ) : ℚ :=
  xsec / 2.56819e-9

/-- The read-only property `PartonXSec.var_scale` (spectrum.py lines
112-129): raises `NotImplementedError` while `var_scale_` is unset. -/
def var_scale (m : PartonXSecModel) : Except PyErr ℚ :=
  match m.var_scale_ with
  | none => Except.error (PyErr.notImplementedError "Property var_scale must be set in a subclass.")
  | some v => Except.ok v

/-- `PartonXSec.width_tt`: partial width for the decay to a top pair, with
`s = none` standing for Python's default `s=None` (evaluate at `mass ** 2`). -/
def width_tt (env : Env) (cp : CP) (mass : ℚ) (s? : Option ℚ) (g : ℚ) : ℚ :=
  let beta_power : ℕ := match cp with | CP.H => 3 | CP.A => 1
  let s := s?.getD (mass ^ 2)
  if s < 4 * mt ^ 2 then 0
  else
    g ^ 2 * 3 * gF * mt ^ 2 / (4 * env.pi * env.sqrt 2)
      * (beta env s) ^ beta_power * s / mass

/-- `PartonXSec.xsec` (spectrum.py lines 173-184): the total cross section
is the sum of the resonant and interference components; an exception in
either component escapes. -/
def xsec (m : PartonXSecModel) (sqrt_s alpha_s : ℚ) : Option ℚ := do
  let r ← m.xsec_res sqrt_s alpha_s
  let i ← m.xsec_int sqrt_s alpha_s
  pure (r + i)

end PartonXSec

/-! ### `XSecTwoHDM` (twohdm.py) -/

/-- Instance state of `XSecTwoHDM` after `__init__`: the constructor
arguments plus the k-factors and `var_scale_` that `__init__` derives. -/
structure XSecTwoHDM where
  mA : ℚ
  wA : ℚ
  gA : ℚ
  mH : ℚ
  wH : ℚ
  gH : ℚ
  kA_res : ℚ
  kH_res : ℚ
  kA_int : ℚ
  kH_int : ℚ
  var_scale_ : Option ℚ

namespace XSecTwoHDM

/-- `XSecTwoHDM.__init__` (twohdm.py lines 15-45): stores the boson
parameters, sets the naive k-factors (`k_int` is the geometric mean
`sqrt(2 * 1.6)`) and `var_scale = min(wA, wH)`. -/
def init (env : Env) (mA wA gA mH wH gH : ℚ) : XSecTwoHDM :=
  { mA := mA, wA := wA, gA := gA, mH := mH, wH := wH, gH := gH,
    kA_res := 2, kH_res := 2,
    kA_int := env.sqrt (2 * 1.6), kH_int := env.sqrt (2 * 1.6),
    var_scale_ := some (min wA wH) }

/-- `XSecTwoHDM.xsec_even_res`: resonant gg → H → tt. -/
def xsec_even_res (env : Env) (c : XSecTwoHDM) (sqrt_s alpha_s : ℚ) : ℚ :=
  let s := sqrt_s ^ 2
  if s < 4 * mt ^ 2 then 0
  else
    let beta := PartonXSec.beta env s
    let y := env.log ((1 + beta) / (1 - beta))
    let a := 3 * (alpha_s * gF * mt ^ 3) ^ 2 * beta ^ 3 / (1024 * env.pi ^ 3)
    let b := 16 + 8 * beta ^ 2 * (env.pi ^ 2 - y ^ 2) + beta ^ 4 * (env.pi ^ 2 + y ^ 2) ^ 2
    let denom := (s - c.mH ^ 2) ^ 2 + (c.mH * c.wH) ^ 2
    PartonXSec.to_pb (c.kH_res * c.gH ^ 4 * a * b / denom)

/-- `XSecTwoHDM.xsec_even_int`: interference in gg → H → tt. -/
def xsec_even_int (env : Env) (c : XSecTwoHDM) (sqrt_s alpha_s : ℚ) : ℚ :=
  let s := sqrt_s ^ 2
  if s < 4 * mt ^ 2 then 0
  else
    let beta := PartonXSec.beta env s
    let y := env.log ((1 + beta) / (1 - beta))
    let a := -alpha_s ^ 2 * gF * mt ^ 4 * beta ^ 2 / (32 * env.pi * env.sqrt 2 * s) * y
    let b := (s - c.mH ^ 2) * (4 + beta ^ 2 * (env.pi ^ 2 - y ^ 2))
      + 2 * env.pi * beta ^ 2 * c.mH * c.wH * y
    let denom := (s - c.mH ^ 2) ^ 2 + (c.mH * c.wH) ^ 2
    PartonXSec.to_pb (c.kH_int * c.gH ^ 2 * a * b / denom)

/-- `XSecTwoHDM.xsec_odd_res`: resonant gg → A → tt. -/
def xsec_odd_res (env : Env) (c : XSecTwoHDM) (sqrt_s alpha_s : ℚ) : ℚ :=
  let s := sqrt_s ^ 2
  if s < 4 * mt ^ 2 then 0
  else
    let beta := PartonXSec.beta env s
    let y := env.log ((1 + beta) / (1 - beta))
    let a := 3 * (alpha_s * gF * mt ^ 3) ^ 2 * beta / (1024 * env.pi ^ 3)
    let b := (env.pi ^ 2 + y ^ 2) ^ 2
    let denom := (s - c.mA ^ 2) ^ 2 + (c.mA * c.wA) ^ 2
    PartonXSec.to_pb (c.kA_res * c.gA ^ 4 * a * b / denom)

/-- `XSecTwoHDM.xsec_odd_int`: interference in gg → A → tt. -/
def xsec_odd_int (env : Env) (c : XSecTwoHDM) (sqrt_s alpha_s : ℚ) : ℚ :=
  let s := sqrt_s ^ 2
  if s < 4 * mt ^ 2 then 0
  else
    let beta := PartonXSec.beta env s
    let y := env.log ((1 + beta) / (1 - beta))
    let a := -alpha_s ^ 2 * gF * mt ^ 4 / (32 * env.pi * env.sqrt 2 * s) * y
    let b := (s - c.mA ^ 2) * (env.pi ^ 2 - y ^ 2) + 2 * env.pi * c.mA * c.wA * y
    let denom := (s - c.mA ^ 2) ^ 2 + (c.mA * c.wA) ^ 2
    PartonXSec.to_pb (c.kA_int * c.gA ^ 2 * a * b / denom)

/-- `XSecTwoHDM.xsec_res`: sum of the CP-even and CP-odd resonant parts. -/
def xsec_res (env : Env) (c : XSecTwoHDM) (sqrt_s alpha_s : ℚ) : ℚ :=
  xsec_even_res env c sqrt_s alpha_s + xsec_odd_res env c sqrt_s alpha_s

/-- `XSecTwoHDM.xsec_int`: sum of the CP-even and CP-odd interference
parts. -/
def xsec_int (env : Env) (c : XSecTwoHDM) (sqrt_s alpha_s : ℚ) : ℚ :=
  xsec_even_int env c sqrt_s alpha_s + xsec_odd_int env c sqrt_s alpha_s

/-- The `PartonXSec` capability of an `XSecTwoHDM` instance (its methods
never raise, so both components are total). -/
def toModel (env : Env) (c : XSecTwoHDM) : PartonXSecModel :=
  { xsec_res := fun sqrt_s alpha_s => some (xsec_res env c sqrt_s alpha_s),
    xsec_int := fun sqrt_s alpha_s => some (xsec_int env c sqrt_s alpha_s),
    var_scale_ := c.var_scale_ }

end XSecTwoHDM

/-! ### `XSecVLQ` (scan_VLQ.py lines 22-112) -/

/-- Instance state of `XSecVLQ` after `__init__`. -/
structure XSecVLQ where
  cp : CP
  mass : ℚ
  g_tt : ℚ
  g_vlq : ℚ
  mass_vlq : ℚ
  num_vlq : ℚ
  k_res : ℚ
  k_int : ℚ
  var_scale_ : Option ℚ

namespace XSecVLQ

/-- `XSecVLQ.__init__`: stores the parameters, sets
`var_scale = width_tt(cp, mass, g=g_tt)` and the naive k-factors. -/
def init (env : Env) (cp : CP) (mass mass_vlq g_tt g_vlq num_vlq : ℚ) : XSecVLQ :=
  { cp := cp, mass := mass, g_tt := g_tt, g_vlq := g_vlq,
    mass_vlq := mass_vlq, num_vlq := num_vlq,
    k_res := 2, k_int := env.sqrt (2 * 2),
    var_scale_ := some (PartonXSec.width_tt env cp mass none g_tt) }

/-- `XSecVLQ.xsec_res` (scan_VLQ.py lines 61-83).  Below the top-pair
threshold it returns `0`.  Above it, after computing `width` the source
evaluates `self.loop_ampl(...)`: no method of that name exists on
`XSecVLQ` or its base class (`PartonXSec` defines only
`loop_ampl_fermion`), so the attribute lookup raises `AttributeError` and
the rest of the body (the amplitude, propagator and cross-section
expressions) is unreachable; that branch is therefore modelled as `none`. -/
def xsec_res (c : XSecVLQ) (sqrt_s alpha_s : ℚ) : Option ℚ :=
  let s := sqrt_s ^ 2
  if s < 4 * mt ^ 2 then some 0
  else none

/-- `XSecVLQ.xsec_int` (scan_VLQ.py lines 86-112): returns `0` below the
top-pair threshold; above it, it reaches the same nonexistent
`self.loop_ampl` attribute as `xsec_res` and raises `AttributeError`
(modelled as `none`). -/
def xsec_int (c : XSecVLQ) (sqrt_s alpha_s : ℚ) : Option ℚ :=
  let s := sqrt_s ^ 2
  if s < 4 * mt ^ 2 then some 0
  else none

/-- The `PartonXSec` capability of an `XSecVLQ` instance. -/
def toModel (c : XSecVLQ) : PartonXSecModel :=
  { xsec_res := c.xsec_res,
    xsec_int := c.xsec_int,
    var_scale_ := c.var_scale_ }

end XSecVLQ

/-! ### `RecoMtt` (spectrum.py lines 238-534) -/

/-- The subprocess tag passed to `RecoMtt.selection_efficiency`; the source
takes the strings `'Res'` and `'Int'` (anything else raises, and the class
itself only ever passes these two literals). -/
inductive Subprocess
  | Res
  | Int

/-- Instance state of `RecoMtt`.  `alphasQ` stands for the external
`self.pdf.alphasQ` of the LHAPDF set and `shat_pdf_interp` for the
`interp1d` built in `__init__` over the external `sHatPDF.npy` table; both
are read-only collaborators, modelled as unconstrained functions.  The
interpolant cache `xsec_nosmear_interp` is determined by the grid it was
built from, so it is modelled as that grid snapshot.  `build_count` is a
ghost instrumentation field (it mirrors the instrumented-model counting
that section 8 of the specification asks for): it counts completed runs of
`build_xsec_grid` and influences nothing. -/
structure RecoMtt where
  parton_xsec_ : PartonXSecModel
  resolution : ℚ
  alphasQ : ℚ → ℚ
  shat_pdf_interp : ℚ → ℚ
  target_branching : ℚ
  add_sel_eff : ℚ
  muR_scale_factor_ : ℚ
  xsec_nosmear_grid : Option (List (ℚ × ℚ))
  xsec_nosmear_interp : Option (List (ℚ × ℚ))
  build_count : ℕ

namespace RecoMtt

/-- `RecoMtt.__init__` (spectrum.py lines 247-287): stores the model and
the resolution, loads the external collaborators, sets
`target_branching = 8/27`, `add_sel_eff = 0.3`, `muR_scale_factor = 1.`
and leaves both caches empty. -/
def init (parton_xsec : PartonXSecModel) (resolution : ℚ)
    (alphasQ shat_pdf_interp : ℚ → ℚ) : RecoMtt :=
  { parton_xsec_ := parton_xsec, resolution := resolution,
    alphasQ := alphasQ, shat_pdf_interp := shat_pdf_interp,
    target_branching := 8 / 27, add_sel_eff := 0.3,
    muR_scale_factor_ := 1,
    xsec_nosmear_grid := none, xsec_nosmear_interp := none,
    build_count := 0 }

/-- The `muR_scale_factor` property setter (spectrum.py lines 366-374):
stores the factor and invalidates the cached grid. -/
def set_muR_scale_factor (r : RecoMtt) (scale_factor : ℚ) : RecoMtt :=
  { r with muR_scale_factor_ := scale_factor, xsec_nosmear_grid := none }

/-- The `parton_xsec` property setter (spectrum.py lines 384-392): stores
the model and invalidates the cached grid. -/
def set_parton_xsec (r : RecoMtt) (parton_xsec : PartonXSecModel) : RecoMtt :=
  { r with parton_xsec_ := parton_xsec, xsec_nosmear_grid := none }

/-- Assignment to `RecoMtt.resolution`.  In the source `resolution` is a
plain attribute (spectrum.py line 264) with no property setter, so the
assignment changes that attribute and nothing else. -/
def set_resolution (r : RecoMtt) (resolution : ℚ) : RecoMtt :=
  { r with resolution := resolution }

/-- `RecoMtt.scale` (spectrum.py lines 395-398): renormalization scale for
a given parton-level mtt. -/
def scale (r : RecoMtt) (mtt : ℚ) : ℚ :=
  mtt / 2 * r.muR_scale_factor_

/-- `RecoMtt.selection_efficiency` (spectrum.py lines 401-424): a log-cubic
fit per subprocess times branching ratio and additional selection
efficiency. -/
def selection_efficiency (env : Env) (r : RecoMtt) (mtt : ℚ) (subprocess : Subprocess) : ℚ :=
  let coeffs : List ℚ :=
    match subprocess with
    | Subprocess.Res => [-0.1166857, 2.19917117, -13.58990087, 27.78332692]
    | Subprocess.Int => [-0.05877867, 1.03660773, -5.91517033, 11.11336388]
  polyval coeffs (env.log mtt) * r.target_branching * r.add_sel_eff

/-- `RecoMtt.xsec_no_smear` (spectrum.py lines 509-534): parton-level cross
section times selection efficiency, convolved with the PDF and multiplied
by the Jacobian factor `2 * mtt`. -/
def xsec_no_smear (env : Env) (r : RecoMtt) (mtt : ℚ) : Option ℚ := do
  let shat := mtt ^ 2
  let alpha_s := r.alphasQ (r.scale mtt)
  let res := (← r.parton_xsec_.xsec_res mtt alpha_s)
    * r.selection_efficiency env mtt Subprocess.Res
  let int_ := (← r.parton_xsec_.xsec_int mtt alpha_s)
    * r.selection_efficiency env mtt Subprocess.Int
  pure ((res + int_) * r.shat_pdf_interp shat * 2 * mtt)

/-- `RecoMtt.build_xsec_grid` (spectrum.py lines 290-356) as a state
transformer: reads `var_scale` from the model (whose getter may raise),
builds the adaptive grid from `xsec_no_smear` over the fixed domain
`(340, 2000)`, stores it and resets the interpolant cache.  The ghost
`build_count` is bumped. -/
def build_xsec_grid (env : Env) (r : RecoMtt) (rel_tolerance : ℚ) (fuel : ℕ) :
    Option RecoMtt := do
  let var_scale ← (PartonXSec.var_scale r.parton_xsec_).toOption
  let grid ← buildXsecGridFn (r.xsec_no_smear env) rel_tolerance var_scale fuel
  pure { r with xsec_nosmear_grid := some grid, xsec_nosmear_interp := none,
                build_count := r.build_count + 1 }

/-- `RecoMtt.xsec` (spectrum.py lines 427-506): the smeared differential
cross section.  Builds the grid lazily (with the default
`rel_tolerance=0.005`), finds the integration window with `searchsorted`,
and convolves with the truncated Gaussian kernel along one of two paths
chosen by the window's sample count; the sparse path lazily constructs the
linear interpolant of the grid.  Returns the value together with the
updated evaluator state. -/
def xsec (env : Env) (r0 : RecoMtt) (mtt num_sigma : ℚ) (fuel : ℕ) :
    Option (ℚ × RecoMtt) := do
  let r ← match r0.xsec_nosmear_grid with
          | none => r0.build_xsec_grid env (5 / 1000) fuel
          | some _ => some r0
  let grid ← r.xsec_nosmear_grid
  let half_width := num_sigma * r.resolution * mtt
  let start := bisectLeft (grid.map Prod.fst) (mtt - half_width)
  let stop := bisectRight (grid.map Prod.fst) (mtt + half_width)
  if 20 < ((stop : ℚ) - (start : ℚ)) / num_sigma then
    let window := (grid.drop start).take (stop - start)
    let pts := window.map (fun p =>
      let sigma := r.resolution * p.1
      (p.1, p.2 * (1 / sigma * env.exp (-0.5 * ((mtt - p.1) / sigma) ^ 2)
                    / env.sqrt (2 * env.pi)
                    / env.erf (num_sigma / env.sqrt 2))))
    -- The source calls simps(values, nodes, 'first').  In scipy's signature
    -- simps(y, x=None, dx=1, axis=-1, even='avg') the third positional
    -- argument is dx, so the string lands on dx -- which is ignored because
    -- x is supplied -- and the even-sample mode stays the default 'avg'.
    pure (pySimps pts SimpsEven.avg, r)
  else
    let (interp_grid, r') :=
      match r.xsec_nosmear_interp with
      | none => (grid, { r with xsec_nosmear_interp := some grid })
      | some ig => (ig, r)
    let xs := linspace (mtt - half_width) (mtt + half_width) 101
    let pts := xs.map (fun x =>
      let sigma := r.resolution * x
      let weight := 1 / sigma * env.exp (-0.5 * ((mtt - x) / sigma) ^ 2)
      (x, interp1dZero interp_grid x * weight
            / (env.sqrt (2 * env.pi) * env.erf (num_sigma / env.sqrt 2))))
    pure (pySimps pts SimpsEven.avg, r')

end RecoMtt

/-! ### Basic lemmas about the numeric helpers -/

theorem linspace_length (a b : ℚ) (n : ℕ) : (linspace a b n).length = n := by
  simp [linspace]

theorem linspace_head? (a b : ℚ) (n : ℕ) (hn : n ≠ 0) :
    (linspace a b n).head? = some a := by
  obtain ⟨m, rfl⟩ := Nat.exists_eq_succ_of_ne_zero hn
  simp [linspace, List.range_succ_eq_map]

theorem linspace_getLast? (a b : ℚ) (n : ℕ) (hn : 2 ≤ n) :
    (linspace a b n).getLast? = some b := by
  have hlen : (linspace a b n).length = n := linspace_length a b n
  have hne : (linspace a b n) ≠ [] := by
    intro h
    rw [h] at hlen
    simp at hlen
    omega
  rw [List.getLast?_eq_getElem?, hlen]
  rw [linspace, List.getElem?_map, List.getElem?_range (by omega : n - 1 < n)]
  have hcast : ((n - 1 : ℕ) : ℚ) = (n : ℚ) - 1 := by
    push_cast [Nat.cast_sub (by omega : 1 ≤ n)]
    ring
  have hnz : ((n : ℚ) - 1) ≠ 0 := by
    have : (2 : ℚ) ≤ (n : ℚ) := by exact_mod_cast hn
    linarith
  simp only [Option.map_some']
  congr 1
  rw [hcast]
  field_simp

theorem linspace_chain_lt (a b : ℚ) (n : ℕ) (hab : a < b) :
    (linspace a b n).Chain' (· < ·) := by
  match n, hab with
  | 0, _ => simp [linspace]
  | 1, _ => simp [linspace]
  | m + 2, hab =>
    have hd : 0 < (b - a) / ((m : ℚ) + 1) := div_pos (by linarith) (by positivity)
    rw [linspace, List.chain'_map]
    rw [show m + 2 = (m + 1) + 1 from rfl, List.chain'_range_succ]
    intro i _
    have h1 : (i : ℚ) < (i : ℚ) + 1 := by linarith
    have h2 := mul_lt_mul_of_pos_right h1 hd
    push_cast
    have h3 : ((m : ℚ) + 1 + 1 - 1) = (m : ℚ) + 1 := by ring
    rw [h3]
    linarith

/-! ### Lemmas about the refinement loop -/

theorem refine_head? (f : ℚ → Option ℚ) (tol : ℚ) :
    ∀ (fuel : ℕ) (l out : List (ℚ × ℚ)), refine f tol fuel l = some out →
      out.head? = l.head? := by
  intro fuel
  induction fuel with
  | zero =>
    intro l out h
    match l with
    | [] => simp [refine] at h; simp [h]
    | [p] => simp [refine] at h; simp [h]
    | p0 :: p1 :: rest => simp [refine] at h
  | succ fuel ih =>
    intro l out h
    match l with
    | [] => simp [refine] at h; simp [h]
    | [p] => simp [refine] at h; simp [h]
    | p0 :: p1 :: rest =>
      rw [refine] at h
      cases hf : f ((p0.1 + p1.1) / 2) with
      | none => rw [hf] at h; simp at h
      | some y =>
        rw [hf] at h
        simp only [Option.bind_eq_bind, Option.some_bind] at h
        split at h
        · rw [ih _ _ h]
          rfl
        · obtain ⟨out', hout', rfl⟩ := Option.map_eq_some'.mp h
          rfl

theorem refine_getLast? (f : ℚ → Option ℚ) (tol : ℚ) :
    ∀ (fuel : ℕ) (l out : List (ℚ × ℚ)), refine f tol fuel l = some out →
      out.getLast? = l.getLast? := by
  intro fuel
  induction fuel with
  | zero =>
    intro l out h
    match l with
    | [] => simp [refine] at h; simp [h]
    | [p] => simp [refine] at h; simp [h]
    | p0 :: p1 :: rest => simp [refine] at h
  | succ fuel ih =>
    intro l out h
    match l with
    | [] => simp [refine] at h; simp [h]
    | [p] => simp [refine] at h; simp [h]
    | p0 :: p1 :: rest =>
      rw [refine] at h
      cases hf : f ((p0.1 + p1.1) / 2) with
      | none => rw [hf] at h; simp at h
      | some y =>
        rw [hf] at h
        simp only [Option.bind_eq_bind, Option.some_bind] at h
        split at h
        · rw [ih _ _ h]
          simp [List.getLast?_cons_cons]
        · obtain ⟨out', hout', rfl⟩ := Option.map_eq_some'.mp h
          have hhd := refine_head? f tol fuel _ _ hout'
          match out', hhd with
          | q :: t, _ =>
            rw [List.getLast?_cons_cons, ih _ _ hout', List.getLast?_cons_cons]

theorem refine_chain_lt (f : ℚ → Option ℚ) (tol : ℚ) :
    ∀ (fuel : ℕ) (l out : List (ℚ × ℚ)), refine f tol fuel l = some out →
      l.Chain' (fun p q => p.1 < q.1) → out.Chain' (fun p q => p.1 < q.1) := by
  intro fuel
  induction fuel with
  | zero =>
    intro l out h hc
    match l with
    | [] => simp [refine] at h; subst h; simp
    | [p] => simp [refine] at h; subst h; simp
    | p0 :: p1 :: rest => simp [refine] at h
  | succ fuel ih =>
    intro l out h hc
    match l with
    | [] => simp [refine] at h; subst h; simp
    | [p] => simp [refine] at h; subst h; simp
    | p0 :: p1 :: rest =>
      rw [refine] at h
      cases hf : f ((p0.1 + p1.1) / 2) with
      | none => rw [hf] at h; simp at h
      | some y =>
        rw [hf] at h
        simp only [Option.bind_eq_bind, Option.some_bind] at h
        rw [List.chain'_cons] at hc
        split at h
        · apply ih _ _ h
          rw [List.chain'_cons, List.chain'_cons]
          refine ⟨by simpa using by linarith [hc.1], by simpa using by linarith [hc.1], hc.2⟩
        · obtain ⟨out', hout', rfl⟩ := Option.map_eq_some'.mp h
          have hhd := refine_head? f tol fuel _ _ hout'
          rw [List.chain'_cons']
          constructor
          · intro q hq
            rw [hhd] at hq
            simp at hq
            rw [← hq]
            exact hc.1
          · exact ih _ _ hout' hc.2

/-- The acceptance invariant of the refinement loop: every adjacent pair of
the returned grid passed the acceptance test of the loop, i.e. the step in
the stored values is at most the tolerance and the value of `f` at the
segment midpoint deviates from the linear interpolant by at most half the
tolerance. -/
theorem refine_accept (f : ℚ → Option ℚ) (tol : ℚ) :
    ∀ (fuel : ℕ) (l out : List (ℚ × ℚ)), refine f tol fuel l = some out →
      out.Chain' (fun p q => ∃ y, f ((p.1 + q.1) / 2) = some y ∧
        |q.2 - p.2| ≤ tol ∧ |y - (p.2 + q.2) / 2| ≤ tol / 2) := by
  intro fuel
  induction fuel with
  | zero =>
    intro l out h
    match l with
    | [] => simp [refine] at h; subst h; simp
    | [p] => simp [refine] at h; subst h; simp
    | p0 :: p1 :: rest => simp [refine] at h
  | succ fuel ih =>
    intro l out h
    match l with
    | [] => simp [refine] at h; subst h; simp
    | [p] => simp [refine] at h; subst h; simp
    | p0 :: p1 :: rest =>
      rw [refine] at h
      cases hf : f ((p0.1 + p1.1) / 2) with
      | none => rw [hf] at h; simp at h
      | some y =>
        rw [hf] at h
        simp only [Option.bind_eq_bind, Option.some_bind] at h
        split at h
        next hcond =>
          exact ih _ _ h
        next hcond =>
          push_neg at hcond
          obtain ⟨out', hout', rfl⟩ := Option.map_eq_some'.mp h
          have hhd := refine_head? f tol fuel _ _ hout'
          rw [List.chain'_cons']
          constructor
          · intro q hq
            rw [hhd] at hq
            simp at hq
            rw [← hq]
            exact ⟨y, hf, hcond.1, hcond.2⟩
          · exact ih _ _ hout'

/-- If `f` is constantly `some c`, all stored values are `c` and the
tolerance is nonnegative, the loop accepts every segment right away and
returns its input (given enough fuel). -/
theorem refine_const (f : ℚ → Option ℚ) (c tol : ℚ) (hf : ∀ x, f x = some c)
    (htol : 0 ≤ tol) :
    ∀ (fuel : ℕ) (l : List (ℚ × ℚ)), (∀ p ∈ l, p.2 = c) → l.length ≤ fuel + 1 →
      refine f tol fuel l = some l := by
  intro fuel
  induction fuel with
  | zero =>
    intro l hl hlen
    match l with
    | [] => simp [refine]
    | [p] => simp [refine]
    | p0 :: p1 :: rest => simp at hlen
  | succ fuel ih =>
    intro l hl hlen
    match l with
    | [] => simp [refine]
    | [p] => simp [refine]
    | p0 :: p1 :: rest =>
      rw [refine, hf]
      simp only [Option.bind_eq_bind, Option.some_bind]
      have h0 : p0.2 = c := hl p0 (by simp)
      have h1 : p1.2 = c := hl p1 (by simp)
      rw [if_neg]
      · rw [ih (p1 :: rest) (fun p hp => hl p (by simp [hp])) (by simp at hlen ⊢; omega)]
        rfl
      · push_neg
        constructor
        · rw [h0, h1]
          simpa using htol
        · rw [h0, h1]
          have : |c - (c + c) / 2| = 0 := by ring_nf; simp
          rw [this]
          linarith

/-! ### Lemmas about seeding the grid -/

theorem mapM_points_fst (f : ℚ → Option ℚ) :
    ∀ (xs : List ℚ) (pts : List (ℚ × ℚ)),
      xs.mapM (fun x => (f x).map (fun y => (x, y))) = some pts →
      pts.map Prod.fst = xs := by
  intro xs
  induction xs with
  | nil =>
    intro pts h
    rw [List.mapM_nil] at h
    simp only [Option.pure_def, Option.some.injEq] at h
    simp [← h]
  | cons x xs ih =>
    intro pts h
    rw [List.mapM_cons] at h
    cases hf : f x with
    | none => rw [hf] at h; simp at h
    | some y =>
      rw [hf] at h
      simp only [Option.map_some', Option.bind_eq_bind, Option.some_bind] at h
      cases hrest : xs.mapM (fun x => (f x).map (fun y => (x, y))) with
      | none => rw [hrest] at h; simp at h
      | some pts' =>
        rw [hrest] at h
        simp only [Option.bind_eq_bind, Option.some_bind, Option.pure_def,
          Option.some.injEq] at h
        subst h
        simp [ih pts' hrest]

theorem mapM_points_total (fn : ℚ → ℚ) (xs : List ℚ) :
    xs.mapM (fun x => (some (fn x)).map (fun y => (x, y)))
      = some (xs.map (fun x => (x, fn x))) := by
  induction xs with
  | nil => rw [List.mapM_nil]; rfl
  | cons x xs ih => rw [List.mapM_cons, ih]; simp

theorem listMax_map_const (c : ℚ) :
    ∀ (l : List ℚ), l ≠ [] → listMax (l.map (fun _ => c)) = c := by
  have aux : ∀ (l : List ℚ), (l.map (fun _ => c)).foldl max c = c := by
    intro l
    induction l with
    | nil => rfl
    | cons x xs ih => simpa [max_self] using ih
  intro l hl
  match l with
  | x :: xs => simpa [listMax] using aux xs

theorem listMin_map_const (c : ℚ) :
    ∀ (l : List ℚ), l ≠ [] → listMin (l.map (fun _ => c)) = c := by
  have aux : ∀ (l : List ℚ), (l.map (fun _ => c)).foldl min c = c := by
    intro l
    induction l with
    | nil => rfl
    | cons x xs ih => simpa [min_self] using ih
  intro l hl
  match l with
  | x :: xs => simpa [listMin] using aux xs

theorem numPoints_ge (var_scale : ℚ) : 100 ≤ numPoints var_scale :=
  Nat.le_max_left _ _

/-- Evaluation of the grid builder on a function that is constantly
`some c`: the tolerance degenerates to `0`, every segment is accepted at
once, and the grid is exactly the seed grid. -/
theorem buildXsecGridFn_const (f : ℚ → Option ℚ) (c : ℚ) (hf : ∀ x, f x = some c)
    (rel_tolerance var_scale : ℚ) (fuel : ℕ) (hfuel : numPoints var_scale ≤ fuel + 1) :
    buildXsecGridFn f rel_tolerance var_scale fuel
      = some ((linspace 340 2000 (numPoints var_scale)).map (fun x => (x, c))) := by
  have hfn : (fun x => (f x).map (fun y => (x, y)))
      = fun x => ((fun x' => some c) x).map (fun y => (x, y)) := by
    funext x
    rw [hf]
  have hne : linspace 340 2000 (numPoints var_scale) ≠ [] := by
    intro h
    have hlen := linspace_length 340 2000 (numPoints var_scale)
    rw [h] at hlen
    simp only [List.length_nil] at hlen
    have h100 := numPoints_ge var_scale
    omega
  rw [buildXsecGridFn, hfn, mapM_points_total (fun _ => c)]
  simp only [Option.bind_eq_bind, Option.some_bind]
  have hsnd : ((linspace 340 2000 (numPoints var_scale)).map (fun x => (x, c))).map Prod.snd
      = (linspace 340 2000 (numPoints var_scale)).map (fun _ => c) := by
    rw [List.map_map]
    rfl
  rw [hsnd, listMax_map_const c _ hne, listMin_map_const c _ hne]
  have htol : rel_tolerance * (c - c) = 0 := by ring
  rw [htol]
  apply refine_const f c 0 hf le_rfl
  · intro p hp
    simp at hp
    obtain ⟨x, _, rfl⟩ := hp
    rfl
  · rw [List.length_map, linspace_length]
    exact hfuel

/-! ### Claims C2 and C6: postconditions of the grid builder -/

/-- The tolerance of `build_xsec_grid` as the specification words it: the
relative tolerance times the span of the function values over the initial
uniform seed samples. -/
def seedTolerance (fn : ℚ → ℚ) (rel_tolerance var_scale : ℚ) : ℚ :=
  rel_tolerance * (listMax ((linspace 340 2000 (numPoints var_scale)).map fn)
    - listMin ((linspace 340 2000 (numPoints var_scale)).map fn))

/-- C2 (grid tolerance postcondition): whenever `build_xsec_grid`
terminates on a deterministic total function `fn`, every adjacent pair of
stored grid samples differs by at most the tolerance, and the value of
`fn` at the segment midpoint deviates from the average of the two stored
values by at most half the tolerance, the tolerance being the relative
tolerance times the span of `fn` over the seed samples. -/
theorem claim_C2_grid_tolerance (fn : ℚ → ℚ) (rel_tolerance var_scale : ℚ)
    (fuel : ℕ) (g : List (ℚ × ℚ))
    (h : buildXsecGridFn (fun x => some (fn x)) rel_tolerance var_scale fuel = some g) :
    g.Chain' (fun p q =>
      |q.2 - p.2| ≤ seedTolerance fn rel_tolerance var_scale ∧
      |fn ((p.1 + q.1) / 2) - (p.2 + q.2) / 2|
        ≤ seedTolerance fn rel_tolerance var_scale / 2) := by
  rw [buildXsecGridFn] at h
  rw [mapM_points_total fn] at h
  simp only [Option.bind_eq_bind, Option.some_bind] at h
  have hmap : ((linspace 340 2000 (numPoints var_scale)).map (fun x => (x, fn x))).map Prod.snd
      = (linspace 340 2000 (numPoints var_scale)).map fn := by
    rw [List.map_map]
    rfl
  rw [hmap] at h
  have hacc := refine_accept _ _ _ _ _ h
  refine hacc.imp ?_
  intro p q hpq
  obtain ⟨y, hy, h1, h2⟩ := hpq
  simp only [Option.some.injEq] at hy
  subst hy
  exact ⟨h1, h2⟩

/-- The grid produced by the builder for a function that is constantly
zero: just the seed grid with zero values. -/
def zeroSeedGrid : List (ℚ × ℚ) :=
  (linspace 340 2000 (numPoints 1660)).map (fun x => (x, 0))

theorem numPoints_1660 : numPoints 1660 = 100 := by
  norm_num [numPoints, pyRound]

theorem buildZeroEval :
    buildXsecGridFn (fun _ => some 0) (5 / 1000) 1660 200 = some zeroSeedGrid := by
  apply buildXsecGridFn_const (fun _ => some 0) 0 (fun _ => rfl)
  rw [numPoints_1660]
  omega

/-- Witness for C2: a concrete run of the grid builder on the zero
function, to which the theorem applies. -/
theorem claim_C2_grid_tolerance_witness :
    buildXsecGridFn (fun x => some ((fun _ : ℚ => (0 : ℚ)) x)) (5 / 1000) 1660 200
      = some zeroSeedGrid ∧
    zeroSeedGrid.Chain' (fun p q =>
      |q.2 - p.2| ≤ seedTolerance (fun _ : ℚ => (0 : ℚ)) (5 / 1000) 1660 ∧
      |(fun _ : ℚ => (0 : ℚ)) ((p.1 + q.1) / 2) - (p.2 + q.2) / 2|
        ≤ seedTolerance (fun _ : ℚ => (0 : ℚ)) (5 / 1000) 1660 / 2) :=
  ⟨buildZeroEval, claim_C2_grid_tolerance (fun _ => 0) (5 / 1000) 1660 200 zeroSeedGrid
    buildZeroEval⟩

/-- C6 (grid monotonicity and coverage): whenever `build_xsec_grid`
terminates, the x-coordinates of the stored grid are strictly increasing,
the first one is the domain lower bound 340 GeV and the last one the upper
bound 2000 GeV. -/
theorem claim_C6_grid_monotone_coverage (f : ℚ → Option ℚ)
    (rel_tolerance var_scale : ℚ) (fuel : ℕ) (g : List (ℚ × ℚ))
    (h : buildXsecGridFn f rel_tolerance var_scale fuel = some g) :
    g.Chain' (fun p q => p.1 < q.1) ∧
    g.head?.map Prod.fst = some 340 ∧ g.getLast?.map Prod.fst = some 2000 := by
  rw [buildXsecGridFn] at h
  cases hm : (linspace 340 2000 (numPoints var_scale)).mapM
      (fun x => (f x).map (fun y => (x, y))) with
  | none => rw [hm] at h; simp at h
  | some pts =>
    rw [hm] at h
    simp only [Option.bind_eq_bind, Option.some_bind] at h
    have hfst := mapM_points_fst f _ _ hm
    have hsort : pts.Chain' (fun p q => p.1 < q.1) := by
      have hlin := linspace_chain_lt 340 2000 (numPoints var_scale) (by norm_num)
      rw [← hfst, List.chain'_map] at hlin
      exact hlin
    refine ⟨refine_chain_lt _ _ _ _ _ h hsort, ?_, ?_⟩
    · rw [refine_head? _ _ _ _ _ h, ← List.head?_map, hfst]
      exact linspace_head? 340 2000 _ (by have := numPoints_ge var_scale; omega)
    · rw [refine_getLast? _ _ _ _ _ h, ← List.getLast?_map, hfst]
      exact linspace_getLast? 340 2000 _ (by have := numPoints_ge var_scale; omega)

/-- Witness for C6: the same concrete run of the grid builder, with the
monotonicity and coverage conclusions instantiated. -/
theorem claim_C6_grid_monotone_coverage_witness :
    buildXsecGridFn (fun _ => some 0) (5 / 1000) 1660 200 = some zeroSeedGrid ∧
    (zeroSeedGrid.Chain' (fun p q => p.1 < q.1) ∧
      zeroSeedGrid.head?.map Prod.fst = some 340 ∧
      zeroSeedGrid.getLast?.map Prod.fst = some 2000) :=
  ⟨buildZeroEval, claim_C6_grid_monotone_coverage (fun _ => some 0) (5 / 1000) 1660 200
    zeroSeedGrid buildZeroEval⟩

/-! ### Claim C8: unset variation scale -/

/-- C8 (unset variation scale fails): reading the `var_scale` property of
any model whose `var_scale_` attribute was never set by a concrete
implementation raises (`NotImplementedError`, the error the specification
names `NotConfigured`) instead of returning a default value. -/
theorem claim_C8_var_scale_unset (m : PartonXSecModel) (h : m.var_scale_ = none) :
    PartonXSec.var_scale m = Except.error
      (PyErr.notImplementedError "Property var_scale must be set in a subclass.") := by
  rw [PartonXSec.var_scale, h]

/-- Witness for C8: a freshly constructed abstract model with the
variation scale left unset. -/
theorem claim_C8_var_scale_unset_witness :
    PartonXSec.var_scale ⟨fun _ _ => none, fun _ _ => none, none⟩ = Except.error
      (PyErr.notImplementedError "Property var_scale must be set in a subclass.") :=
  claim_C8_var_scale_unset ⟨fun _ _ => none, fun _ _ => none, none⟩ rfl

/-! ### Claim C10: decomposition of the total cross section -/

/-- C10 (implicit decomposition of the total cross section): the inherited
`PartonXSec.xsec` is exactly the sum of the resonant and the interference
components: for any abstract model whose components evaluate, for every
`XSecTwoHDM` instance unconditionally, and for every `XSecVLQ` instance
whose components evaluate. -/
theorem claim_C10_xsec_decomposition :
    (∀ (m : PartonXSecModel) (sqrt_s alpha_s r i : ℚ),
      m.xsec_res sqrt_s alpha_s = some r → m.xsec_int sqrt_s alpha_s = some i →
      PartonXSec.xsec m sqrt_s alpha_s = some (r + i)) ∧
    (∀ (env : Env) (c : XSecTwoHDM) (sqrt_s alpha_s : ℚ),
      PartonXSec.xsec (XSecTwoHDM.toModel env c) sqrt_s alpha_s
        = some (XSecTwoHDM.xsec_res env c sqrt_s alpha_s
            + XSecTwoHDM.xsec_int env c sqrt_s alpha_s)) ∧
    (∀ (c : XSecVLQ) (sqrt_s alpha_s r i : ℚ),
      c.xsec_res sqrt_s alpha_s = some r → c.xsec_int sqrt_s alpha_s = some i →
      PartonXSec.xsec (XSecVLQ.toModel c) sqrt_s alpha_s = some (r + i)) := by
  refine ⟨?_, ?_, ?_⟩
  · intro m sqrt_s alpha_s r i h1 h2
    rw [PartonXSec.xsec, h1]
    simp only [Option.bind_eq_bind, Option.some_bind]
    rw [h2]
    rfl
  · intro env c sqrt_s alpha_s
    rfl
  · intro c sqrt_s alpha_s r i h1 h2
    rw [PartonXSec.xsec]
    rw [show (XSecVLQ.toModel c).xsec_res = c.xsec_res from rfl, h1]
    simp only [Option.bind_eq_bind, Option.some_bind]
    rw [show (XSecVLQ.toModel c).xsec_int = c.xsec_int from rfl, h2]
    rfl

/-- A concrete environment for witnesses: any interpretation of the
transcendental primitives works, so a trivial one is used. -/
def envW : Env :=
  { exp := fun _ => 1, log := fun _ => 0, sqrt := fun _ => 1, erf := fun _ => 1,
    asin := fun _ => 0, pi := 3 }

/-- A concrete `XSecVLQ` instance for witnesses. -/
def vlqW : XSecVLQ := XSecVLQ.init envW CP.H 700 500 1 1 1

/-- A concrete `XSecTwoHDM` instance for witnesses. -/
def twoHdmW : XSecTwoHDM := XSecTwoHDM.init envW 500 10 1 600 10 1

/-- Witness for C10: the VLQ conjunct applied at a concrete point below
threshold, where both components evaluate (to zero). -/
theorem claim_C10_xsec_decomposition_witness :
    vlqW.xsec_res 100 1 = some 0 ∧ vlqW.xsec_int 100 1 = some 0 ∧
    PartonXSec.xsec (XSecVLQ.toModel vlqW) 100 1 = some (0 + 0) := by
  have h1 : vlqW.xsec_res 100 1 = some 0 := by
    rw [XSecVLQ.xsec_res, if_pos (by norm_num [mt])]
  have h2 : vlqW.xsec_int 100 1 = some 0 := by
    rw [XSecVLQ.xsec_int, if_pos (by norm_num [mt])]
  exact ⟨h1, h2, claim_C10_xsec_decomposition.2.2 vlqW 100 1 0 0 h1 h2⟩

/-! ### Claim C5: threshold property of the concrete models -/

/-- C5 (threshold property): for both concrete models in the repository,
the resonant and the interference components are exactly zero whenever
`s = sqrt_s ^ 2` is below the top-pair threshold `4 * mt ^ 2` with
`mt = 173` GeV (for `XSecVLQ` the components are fallible and evaluate to
`some 0`). -/
theorem claim_C5_threshold (env : Env) (c2 : XSecTwoHDM) (cv : XSecVLQ)
    (sqrt_s alpha_s : ℚ) (h : sqrt_s ^ 2 < 4 * 173 ^ 2) :
    XSecTwoHDM.xsec_res env c2 sqrt_s alpha_s = 0 ∧
    XSecTwoHDM.xsec_int env c2 sqrt_s alpha_s = 0 ∧
    XSecVLQ.xsec_res cv sqrt_s alpha_s = some 0 ∧
    XSecVLQ.xsec_int cv sqrt_s alpha_s = some 0 := by
  have h' : sqrt_s ^ 2 < 4 * mt ^ 2 := by rw [mt]; exact_mod_cast h
  refine ⟨?_, ?_, ?_, ?_⟩
  · rw [XSecTwoHDM.xsec_res, XSecTwoHDM.xsec_even_res, XSecTwoHDM.xsec_odd_res,
      if_pos h', if_pos h', add_zero]
  · rw [XSecTwoHDM.xsec_int, XSecTwoHDM.xsec_even_int, XSecTwoHDM.xsec_odd_int,
      if_pos h', if_pos h', add_zero]
  · rw [XSecVLQ.xsec_res, if_pos h']
  · rw [XSecVLQ.xsec_int, if_pos h']

/-- Witness for C5: both concrete model instances evaluated just below the
top-pair threshold. -/
theorem claim_C5_threshold_witness :
    ((100 : ℚ) ^ 2 < 4 * 173 ^ 2) ∧
    (XSecTwoHDM.xsec_res envW twoHdmW 100 1 = 0 ∧
      XSecTwoHDM.xsec_int envW twoHdmW 100 1 = 0 ∧
      XSecVLQ.xsec_res vlqW 100 1 = some 0 ∧
      XSecVLQ.xsec_int vlqW 100 1 = some 0) :=
  ⟨by norm_num, claim_C5_threshold envW twoHdmW vlqW 100 1 (by norm_num)⟩

/-! ### Claim C4: the un-smeared cross-section formula -/

/-- The un-smeared cross section as the specification words it:
`(resonant × efficiency(Res) + interference × efficiency(Int)) ×
pdfConvolution(mtt²) × 2·mtt`, the components being evaluated at the
strong coupling at scale `mtt / 2 × muR_scale_factor`. -/
def specUnsmeared (env : Env) (r : RecoMtt) (mtt res_val int_val : ℚ) : ℚ :=
  (res_val * r.selection_efficiency env mtt Subprocess.Res
    + int_val * r.selection_efficiency env mtt Subprocess.Int)
    * r.shat_pdf_interp (mtt ^ 2) * (2 * mtt)

/-- C4 (un-smeared cross-section formula): whenever the two model
components evaluate at the strong coupling
`alphasQ(mtt / 2 * muR_scale_factor)`, `xsec_no_smear` returns exactly the
formula of the specification. -/
theorem claim_C4_unsmeared_formula (env : Env) (r : RecoMtt) (mtt res_val int_val : ℚ)
    (h1 : r.parton_xsec_.xsec_res mtt (r.alphasQ (mtt / 2 * r.muR_scale_factor_))
      = some res_val)
    (h2 : r.parton_xsec_.xsec_int mtt (r.alphasQ (mtt / 2 * r.muR_scale_factor_))
      = some int_val) :
    r.xsec_no_smear env mtt = some (specUnsmeared env r mtt res_val int_val) := by
  rw [RecoMtt.xsec_no_smear]
  rw [show r.scale mtt = mtt / 2 * r.muR_scale_factor_ from rfl]
  rw [h1]
  simp only [Option.bind_eq_bind, Option.some_bind]
  rw [h2]
  simp only [Option.bind_eq_bind, Option.some_bind, Option.pure_def, Option.some.injEq]
  rw [specUnsmeared]
  ring

/-- A concrete abstract model whose components are constantly zero, for
witnesses. -/
def modelW : PartonXSecModel :=
  { xsec_res := fun _ _ => some 0, xsec_int := fun _ _ => some 0, var_scale_ := some 1660 }

/-- A concrete evaluator state for witnesses. -/
def recoW : RecoMtt := RecoMtt.init modelW (1 / 5) (fun _ => 0) (fun _ => 1)

/-- Witness for C4: the formula instantiated on a concrete evaluator whose
model components evaluate to zero. -/
theorem claim_C4_unsmeared_formula_witness :
    recoW.parton_xsec_.xsec_res 700 (recoW.alphasQ (700 / 2 * recoW.muR_scale_factor_))
      = some 0 ∧
    recoW.xsec_no_smear envW 700 = some (specUnsmeared envW recoW 700 0 0) :=
  ⟨rfl, claim_C4_unsmeared_formula envW recoW 700 0 0 rfl rfl⟩

/-! ### Claim C9: frame property of grid building -/

/-- C9 (frame property of grid building): whenever `build_xsec_grid`
returns, the interpolant cache is cleared, the stored grid is exactly the
newly built one, and the rest of the evaluator state (model reference,
resolution, renormalization-scale factor, strong-coupling reader and PDF
table) is unchanged. -/
theorem claim_C9_build_frame (env : Env) (r r' : RecoMtt) (rel_tolerance : ℚ) (fuel : ℕ)
    (h : r.build_xsec_grid env rel_tolerance fuel = some r') :
    r'.xsec_nosmear_interp = none ∧
    (∃ var_scale grid, PartonXSec.var_scale r.parton_xsec_ = Except.ok var_scale ∧
      buildXsecGridFn (r.xsec_no_smear env) rel_tolerance var_scale fuel = some grid ∧
      r'.xsec_nosmear_grid = some grid) ∧
    r'.parton_xsec_ = r.parton_xsec_ ∧
    r'.resolution = r.resolution ∧
    r'.muR_scale_factor_ = r.muR_scale_factor_ ∧
    r'.alphasQ = r.alphasQ ∧
    r'.shat_pdf_interp = r.shat_pdf_interp := by
  rw [RecoMtt.build_xsec_grid] at h
  cases hv : r.parton_xsec_.var_scale_ with
  | none =>
    rw [show (PartonXSec.var_scale r.parton_xsec_).toOption = none from by
      rw [PartonXSec.var_scale, hv]; rfl] at h
    simp at h
  | some vs =>
    have hok : PartonXSec.var_scale r.parton_xsec_ = Except.ok vs := by
      rw [PartonXSec.var_scale, hv]
    rw [show (PartonXSec.var_scale r.parton_xsec_).toOption = some vs from by
      rw [hok]; rfl] at h
    simp only [Option.bind_eq_bind, Option.some_bind] at h
    cases hb : buildXsecGridFn (r.xsec_no_smear env) rel_tolerance vs fuel with
    | none => rw [hb] at h; simp at h
    | some grid =>
      rw [hb] at h
      simp only [Option.bind_eq_bind, Option.some_bind, Option.pure_def,
        Option.some.injEq] at h
      subst h
      exact ⟨rfl, ⟨vs, grid, hok, hb, rfl⟩, rfl, rfl, rfl, rfl, rfl⟩

/-- The un-smeared cross section of the witness evaluator `recoW` is
identically zero (its model components are zero). -/
theorem recoW_unsmeared_zero (x : ℚ) : recoW.xsec_no_smear envW x = some 0 := by
  rw [RecoMtt.xsec_no_smear]
  rw [show recoW.parton_xsec_.xsec_res = fun _ _ => some (0 : ℚ) from rfl]
  rw [show recoW.parton_xsec_.xsec_int = fun _ _ => some (0 : ℚ) from rfl]
  simp only [Option.bind_eq_bind, Option.some_bind, Option.pure_def, Option.some.injEq]
  ring

/-- The state of the witness evaluator after its grid has been built. -/
def recoW_built : RecoMtt :=
  { recoW with
      xsec_nosmear_grid := some zeroSeedGrid,
      xsec_nosmear_interp := none,
      build_count := 1 }

theorem buildRecoWEval :
    recoW.build_xsec_grid envW (5 / 1000) 200 = some recoW_built := by
  rw [RecoMtt.build_xsec_grid]
  rw [show (PartonXSec.var_scale recoW.parton_xsec_).toOption = some 1660 from rfl]
  simp only [Option.bind_eq_bind, Option.some_bind]
  rw [buildXsecGridFn_const _ 0 recoW_unsmeared_zero (5 / 1000) 1660 200
    (by rw [numPoints_1660]; omega)]
  simp only [Option.bind_eq_bind, Option.some_bind, Option.pure_def, Option.some.injEq]
  rfl

/-- Witness for C9: a concrete successful run of `build_xsec_grid`, to
which the frame theorem applies. -/
theorem claim_C9_build_frame_witness :
    recoW.build_xsec_grid envW (5 / 1000) 200 = some recoW_built ∧
    (recoW_built.xsec_nosmear_interp = none ∧
      (∃ var_scale grid, PartonXSec.var_scale recoW.parton_xsec_ = Except.ok var_scale ∧
        buildXsecGridFn (recoW.xsec_no_smear envW) (5 / 1000) var_scale 200 = some grid ∧
        recoW_built.xsec_nosmear_grid = some grid) ∧
      recoW_built.parton_xsec_ = recoW.parton_xsec_ ∧
      recoW_built.resolution = recoW.resolution ∧
      recoW_built.muR_scale_factor_ = recoW.muR_scale_factor_ ∧
      recoW_built.alphasQ = recoW.alphasQ ∧
      recoW_built.shat_pdf_interp = recoW.shat_pdf_interp) :=
  ⟨buildRecoWEval, claim_C9_build_frame envW recoW recoW_built (5 / 1000) 200 buildRecoWEval⟩

/-! ### Claim C1: what a resolution change does to the cache -/

/-- Frame lemma for `RecoMtt.xsec` on a state with a cached grid: the
query always returns, never reruns the grid construction (the ghost
counter is unchanged), keeps the cached grid and leaves model, resolution
and renormalization-scale factor untouched. -/
theorem xsec_cached_frame (env : Env) (r : RecoMtt) (mtt num_sigma : ℚ) (fuel : ℕ)
    (g : List (ℚ × ℚ)) (hg : r.xsec_nosmear_grid = some g) :
    ∃ p : ℚ × RecoMtt, RecoMtt.xsec env r mtt num_sigma fuel = some p ∧
      p.2.build_count = r.build_count ∧
      p.2.xsec_nosmear_grid = some g ∧
      p.2.resolution = r.resolution ∧
      p.2.parton_xsec_ = r.parton_xsec_ ∧
      p.2.muR_scale_factor_ = r.muR_scale_factor_ := by
  rw [RecoMtt.xsec, hg]
  simp only [Option.bind_eq_bind, Option.some_bind]
  rw [hg]
  simp only [Option.bind_eq_bind, Option.some_bind]
  split
  · exact ⟨_, rfl, rfl, hg, rfl, rfl, rfl⟩
  · cases hi : r.xsec_nosmear_interp with
    | none =>
      dsimp only
      exact ⟨_, rfl, rfl, rfl, rfl, rfl, rfl⟩
    | some ig =>
      dsimp only
      exact ⟨_, rfl, rfl, hg, rfl, rfl, rfl⟩

/-- A query on a fresh evaluator (no cached grid) first runs the grid
construction and then proceeds exactly as a query on the built state. -/
theorem xsec_fresh_builds (env : Env) (r0 r1 : RecoMtt) (mtt num_sigma : ℚ) (fuel : ℕ)
    (h0 : r0.xsec_nosmear_grid = none)
    (hb : r0.build_xsec_grid env (5 / 1000) fuel = some r1)
    (h1 : r1.xsec_nosmear_grid ≠ none) :
    RecoMtt.xsec env r0 mtt num_sigma fuel = RecoMtt.xsec env r1 mtt num_sigma fuel := by
  rw [RecoMtt.xsec, RecoMtt.xsec, h0, hb]
  cases hg : r1.xsec_nosmear_grid with
  | none => exact absurd hg h1
  | some g => rfl

/-- C1 as amended (no rebuild on resolution change): `resolution` is a
plain attribute without an invalidating setter, so on an evaluator with a
cached grid, assigning a new resolution and querying again does not rerun
the grid construction and reuses the previously cached grid.  (The cached
grid stores the un-smeared cross section, which does not depend on the
resolution, so no rebuild is needed; only model and
renormalization-scale-factor assignments invalidate the cache.) -/
theorem claim_C1_no_rebuild_on_resolution (env : Env) (r : RecoMtt)
    (new_resolution mtt num_sigma : ℚ) (fuel : ℕ) (g : List (ℚ × ℚ))
    (hg : r.xsec_nosmear_grid = some g) :
    (RecoMtt.xsec env (r.set_resolution new_resolution) mtt num_sigma fuel).map
      (fun p => (p.2.build_count, p.2.xsec_nosmear_grid))
      = some (r.build_count, some g) := by
  obtain ⟨p, hp, hc, hgrid, -, -, -⟩ :=
    xsec_cached_frame env (r.set_resolution new_resolution) mtt num_sigma fuel g hg
  rw [hp]
  simp only [Option.map_some']
  rw [hc, hgrid]
  rfl

/-- Counterexample to C1 as stated: on a freshly constructed evaluator, a
first query builds the grid (the ghost build counter becomes 1); after
assigning a new resolution, the next query leaves the counter at 1 — the
grid-construction routine does not run again — and the previously cached
grid is reused, contradicting the claimed forced rebuild. -/
theorem claim_C1_counterexample :
    ((RecoMtt.xsec envW recoW 100 3 200).bind fun p1 =>
      (RecoMtt.xsec envW (p1.2.set_resolution (1 / 2)) 100 3 200).map fun p2 =>
        (p1.2.build_count, p2.2.build_count)) = some (1, 1) := by
  rw [xsec_fresh_builds envW recoW recoW_built 100 3 200 rfl buildRecoWEval
    (by rw [show recoW_built.xsec_nosmear_grid = some zeroSeedGrid from rfl]; simp)]
  obtain ⟨p1, hp1, hc1, hg1, -, -, -⟩ :=
    xsec_cached_frame envW recoW_built 100 3 200 zeroSeedGrid rfl
  rw [hp1]
  simp only [Option.bind_eq_bind, Option.some_bind]
  obtain ⟨p2, hp2, hc2, -, -, -, -⟩ :=
    xsec_cached_frame envW (p1.2.set_resolution (1 / 2)) 100 3 200 zeroSeedGrid
      (by rw [show (p1.2.set_resolution (1 / 2)).xsec_nosmear_grid
            = p1.2.xsec_nosmear_grid from rfl, hg1])
  rw [hp2]
  simp only [Option.map_some']
  rw [hc2, show (p1.2.set_resolution (1 / 2)).build_count = p1.2.build_count from rfl,
    hc1]
  rfl

/-- Witness for the amended C1: the concrete built evaluator state, a new
resolution and a concrete query. -/
theorem claim_C1_no_rebuild_on_resolution_witness :
    (RecoMtt.xsec envW (recoW_built.set_resolution (1 / 2)) 100 3 200).map
      (fun p => (p.2.build_count, p.2.xsec_nosmear_grid))
      = some (1, some zeroSeedGrid) :=
  claim_C1_no_rebuild_on_resolution envW recoW_built (1 / 2) 100 3 200 zeroSeedGrid rfl

/-! ### Claim C3: the two convolution paths -/

/-- The grid points inside a closed window, as the specification words
it. -/
def windowPoints (g : List (ℚ × ℚ)) (lo hi : ℚ) : List (ℚ × ℚ) :=
  g.filter (fun p => decide (lo ≤ p.1 ∧ p.1 ≤ hi))

theorem bisectLeft_nil (v : ℚ) : bisectLeft [] v = 0 := rfl

theorem bisectLeft_cons (x : ℚ) (xs : List ℚ) (v : ℚ) :
    bisectLeft (x :: xs) v = if x < v then bisectLeft xs v + 1 else 0 := by
  rw [bisectLeft, List.takeWhile_cons]
  split
  · next hx =>
    rw [if_pos (by simpa using hx)]
    simp [bisectLeft]
  · next hx =>
    rw [if_neg (by simpa using hx)]
    rfl

theorem bisectRight_cons (x : ℚ) (xs : List ℚ) (v : ℚ) :
    bisectRight (x :: xs) v = if x ≤ v then bisectRight xs v + 1 else 0 := by
  rw [bisectRight, List.takeWhile_cons]
  split
  · next hx =>
    rw [if_pos (by simpa using hx)]
    simp [bisectRight]
  · next hx =>
    rw [if_neg (by simpa using hx)]
    rfl

theorem bisectLeft_eq_zero_of_head (xs : List ℚ) (v : ℚ)
    (h : ∀ x ∈ xs.head?, ¬ x < v) : bisectLeft xs v = 0 := by
  match xs with
  | [] => rfl
  | x :: xs' =>
    rw [bisectLeft_cons, if_neg (h x rfl)]

/-- On a strictly sorted grid, the slice between the two `searchsorted`
indices is exactly the set of grid points inside the closed window, the
left index is never past the right one, and their difference is the
window point count. -/
theorem slice_eq_window (lo hi : ℚ) (hlh : lo ≤ hi) :
    ∀ (g : List (ℚ × ℚ)), g.Pairwise (fun p q => p.1 < q.1) →
      bisectLeft (g.map Prod.fst) lo ≤ bisectRight (g.map Prod.fst) hi ∧
      (g.drop (bisectLeft (g.map Prod.fst) lo)).take
          (bisectRight (g.map Prod.fst) hi - bisectLeft (g.map Prod.fst) lo)
        = windowPoints g lo hi ∧
      bisectRight (g.map Prod.fst) hi - bisectLeft (g.map Prod.fst) lo
        = (windowPoints g lo hi).length := by
  intro g
  induction g with
  | nil => intro _; exact ⟨le_rfl, rfl, rfl⟩
  | cons p g' ih =>
    intro hs
    rw [List.pairwise_cons] at hs
    obtain ⟨hall, hs'⟩ := hs
    obtain ⟨ihle, ihslice, ihcount⟩ := ih hs'
    rw [List.map_cons, bisectLeft_cons, bisectRight_cons]
    by_cases hplo : p.1 < lo
    · have hphi : p.1 ≤ hi := le_trans (le_of_lt hplo) hlh
      rw [if_pos hplo, if_pos hphi]
      have hwp : windowPoints (p :: g') lo hi = windowPoints g' lo hi := by
        rw [windowPoints, List.filter_cons, if_neg (by simp; intro h'; linarith)]
        rfl
      refine ⟨by omega, ?_, ?_⟩
      · rw [hwp, Nat.add_sub_add_right]
        simpa using ihslice
      · rw [hwp, Nat.add_sub_add_right]
        exact ihcount
    · push_neg at hplo
      have hbl' : bisectLeft (g'.map Prod.fst) lo = 0 := by
        apply bisectLeft_eq_zero_of_head
        intro x hx
        match g', hx with
        | q :: t, hx =>
          simp only [List.map_cons, List.head?_cons, Option.mem_def,
            Option.some.injEq] at hx
          subst hx
          have := hall q (by simp)
          linarith
      rw [if_neg (not_lt.mpr hplo)]
      by_cases hphi : p.1 ≤ hi
      · rw [if_pos hphi]
        have hwp : windowPoints (p :: g') lo hi = p :: windowPoints g' lo hi := by
          rw [windowPoints, List.filter_cons, if_pos (by simp [hplo, hphi])]
          rfl
        rw [hbl'] at ihslice ihcount
        refine ⟨by omega, ?_, ?_⟩
        · rw [hwp, Nat.sub_zero, List.drop_zero, List.take_succ_cons]
          simpa using ihslice
        · rw [hwp, Nat.sub_zero, List.length_cons]
          omega
      · rw [if_neg hphi]
        push_neg at hphi
        have hwp : windowPoints (p :: g') lo hi = [] := by
          rw [windowPoints, List.filter_eq_nil_iff]
          intro q hq
          simp only [decide_eq_true_eq, not_and, not_le]
          intro _
          rcases List.mem_cons.mp hq with hq | hq
          · rw [hq]; exact hphi
          · exact lt_trans hphi (hall q hq)
        exact ⟨le_rfl, by simp [hwp], by simp [hwp]⟩

/-- Gaussian weight at a point `x'` for query point `mtt`, with
`σ = resolution * x'`, as the specification words it. -/
def specWeight (env : Env) (resolution mtt x' : ℚ) : ℚ :=
  1 / (resolution * x') * env.exp (-0.5 * ((mtt - x') / (resolution * x')) ^ 2)

/-- The dense-window convolution path as the specification words it:
Simpson's rule over the grid points inside the window applied to the
grid's values weighted by the Gaussian weights (σ = resolution·x') and
divided by `sqrt(2π)` and by the truncation correction
`erf(numSigma/sqrt 2)`.  (Simpson's rule here is scipy's `simps` as the
call site effectively configures it: the `'first'` the source passes lands
on the ignored `dx` parameter, so the even-sample mode is `'avg'`.) -/
def specDirectConv (env : Env) (resolution num_sigma mtt : ℚ) (g : List (ℚ × ℚ)) : ℚ :=
  let half_width := num_sigma * resolution * mtt
  pySimps ((windowPoints g (mtt - half_width) (mtt + half_width)).map (fun p =>
    (p.1, p.2 * (specWeight env resolution mtt p.1 / env.sqrt (2 * env.pi)
      / env.erf (num_sigma / env.sqrt 2))))) SimpsEven.avg

/-- The sparse-window convolution path as the specification words it:
Simpson's rule over exactly 101 uniformly spaced points across the window
applied to the piecewise-linear interpolant of the grid (zero outside its
domain), with the same weights and the same truncation correction. -/
def specResampleConv (env : Env) (resolution num_sigma mtt : ℚ) (g : List (ℚ × ℚ)) : ℚ :=
  let half_width := num_sigma * resolution * mtt
  pySimps ((linspace (mtt - half_width) (mtt + half_width) 101).map (fun x =>
    (x, interp1dZero g x * specWeight env resolution mtt x
      / (env.sqrt (2 * env.pi) * env.erf (num_sigma / env.sqrt 2))))) SimpsEven.avg

/-- The window sample count as the specification words it: the number of
cached grid points inside the closed window. -/
def specWindowCount (g : List (ℚ × ℚ)) (num_sigma resolution mtt : ℚ) : ℕ :=
  (windowPoints g (mtt - num_sigma * resolution * mtt)
    (mtt + num_sigma * resolution * mtt)).length

/-- C3 (dual-path convolution selection): for a query on an evaluator
with a cached, strictly sorted grid (and an interpolant cache that is
either absent or built from that grid), if
`windowCount / numSigma > 20` the returned value is the direct
Simpson-over-grid-points convolution, and otherwise it is the
101-point-resampled convolution through the zero-filled linear
interpolant — both exactly as the specification describes them. -/
theorem claim_C3_dual_path (env : Env) (r : RecoMtt) (mtt num_sigma : ℚ) (fuel : ℕ)
    (g : List (ℚ × ℚ)) (hg : r.xsec_nosmear_grid = some g)
    (hsorted : g.Pairwise (fun p q => p.1 < q.1))
    (hinterp : r.xsec_nosmear_interp = none ∨ r.xsec_nosmear_interp = some g)
    (hns : 0 < num_sigma) (hpos : 0 ≤ r.resolution * mtt) :
    (RecoMtt.xsec env r mtt num_sigma fuel).map Prod.fst
      = some (if 20 < ((specWindowCount g num_sigma r.resolution mtt : ℚ) / num_sigma)
        then specDirectConv env r.resolution num_sigma mtt g
        else specResampleConv env r.resolution num_sigma mtt g) := by
  have hh : 0 ≤ num_sigma * r.resolution * mtt := by
    rw [mul_assoc]
    exact mul_nonneg (le_of_lt hns) hpos
  obtain ⟨hle, hslice, hcount⟩ :=
    slice_eq_window (mtt - num_sigma * r.resolution * mtt)
      (mtt + num_sigma * r.resolution * mtt) (by linarith) g hsorted
  have hcast : ((bisectRight (g.map Prod.fst) (mtt + num_sigma * r.resolution * mtt) : ℚ)
      - (bisectLeft (g.map Prod.fst) (mtt - num_sigma * r.resolution * mtt) : ℚ))
      = ((specWindowCount g num_sigma r.resolution mtt : ℚ)) := by
    rw [specWindowCount, ← hcount]
    push_cast [Nat.cast_sub hle]
    ring
  rw [RecoMtt.xsec, hg]
  simp only [Option.bind_eq_bind, Option.some_bind]
  rw [hg]
  simp only [Option.bind_eq_bind, Option.some_bind]
  rw [hcast, hslice]
  split
  · simp only [Option.pure_def, Option.map_some', Option.some.injEq]
    simp only [specDirectConv, specWeight]
  · rcases hinterp with hi | hi
    · rw [hi]
      dsimp only
      simp only [Option.pure_def, Option.map_some', Option.some.injEq]
      simp only [specResampleConv, specWeight]
    · rw [hi]
      dsimp only
      simp only [Option.pure_def, Option.map_some', Option.some.injEq]
      simp only [specResampleConv, specWeight]

/-- A concrete evaluator with a small cached, sorted grid for the C3
witness. -/
def recoW3 : RecoMtt :=
  { parton_xsec_ := modelW, resolution := 1 / 10, alphasQ := fun _ => 0,
    shat_pdf_interp := fun _ => 1, target_branching := 8 / 27, add_sel_eff := 3 / 10,
    muR_scale_factor_ := 1,
    xsec_nosmear_grid := some [(340, 0), (1000, 0), (2000, 0)],
    xsec_nosmear_interp := none, build_count := 1 }

/-- Witness for C3: a concrete query on the small cached grid. -/
theorem claim_C3_dual_path_witness :
    (RecoMtt.xsec envW recoW3 500 3 0).map Prod.fst
      = some (if 20 < ((specWindowCount [(340, 0), (1000, 0), (2000, 0)] 3
            recoW3.resolution 500 : ℚ) / 3)
        then specDirectConv envW recoW3.resolution 3 500 [(340, 0), (1000, 0), (2000, 0)]
        else specResampleConv envW recoW3.resolution 3 500 [(340, 0), (1000, 0), (2000, 0)]) :=
  claim_C3_dual_path envW recoW3 500 3 0 [(340, 0), (1000, 0), (2000, 0)] rfl
    (by norm_num [List.pairwise_cons]) (Or.inl rfl) (by norm_num)
    (by norm_num [recoW3])

/-! ### Claim C7: error behaviour of the grid builder

The source of `build_xsec_grid` contains no error handling at all: the
domain is the hardcoded pair `(340., 2000.)` (no caller-supplied range
exists that could be degenerate) and no check is made on the sampled
values.  To express what happens when the evaluated function returns a
non-finite IEEE value — something `ℚ` cannot represent — the same source
lines are re-embedded once more over a float domain with `nan`, giving
every comparison Python's `nan`-is-never-less semantics. -/

/-- A Python float as the grid builder sees it: either a finite value
(modelled exactly as a rational) or the non-finite `nan`. -/
inductive PFloat
  | nan
  | val (q : ℚ)
  deriving DecidableEq

namespace PFloat

/-- Float addition: `nan` propagates. -/
def add : PFloat → PFloat → PFloat
  | val a, val b => val (a + b)
  | _, _ => nan

/-- Float subtraction: `nan` propagates. -/
def sub : PFloat → PFloat → PFloat
  | val a, val b => val (a - b)
  | _, _ => nan

/-- Multiplication by a finite constant: `nan` propagates. -/
def mulC (c : ℚ) : PFloat → PFloat
  | val a => val (c * a)
  | nan => nan

/-- Division by a finite nonzero constant: `nan` propagates. -/
def divC : PFloat → ℚ → PFloat
  | val a, c => val (a / c)
  | nan, _ => nan

/-- `abs`: `nan` propagates. -/
def absF : PFloat → PFloat
  | val a => val |a|
  | nan => nan

/-- The `<` comparison of Python floats: any comparison involving `nan`
is `False`. -/
def lt : PFloat → PFloat → Bool
  | val a, val b => decide (a < b)
  | _, _ => false

end PFloat

/-- Python's built-in `max` over a nonempty list of floats: keep the
current candidate unless the next item compares strictly greater (so a
`nan` never displaces the candidate, and a leading `nan` survives). -/
def pyMaxF : List PFloat → PFloat
  | [] => PFloat.nan
  | x :: xs => xs.foldl (fun cur item => if cur.lt item then item else cur) x

/-- Python's built-in `min` over a nonempty list of floats. -/
def pyMinF : List PFloat → PFloat
  | [] => PFloat.nan
  | x :: xs => xs.foldl (fun cur item => if item.lt cur then item else cur) x

/-- The refinement loop of `build_xsec_grid` (spectrum.py lines 330-353)
over float values: same lines as `refine`, with Python float comparison
semantics and a total sampled function (non-finite results are values,
not exceptions). -/
def refineF (f : ℚ → PFloat) (tolerance : PFloat) :
    ℕ → List (ℚ × PFloat) → Option (List (ℚ × PFloat))
  | 0, l =>
      match l with
      | [] => some []
      | [p] => some [p]
      | _ :: _ :: _ => none
  | fuel + 1, l =>
      match l with
      | [] => some []
      | [p] => some [p]
      | p0 :: p1 :: rest =>
          let mean_mtt := (p0.1 + p1.1) / 2
          let xsec_mean_mtt := f mean_mtt
          let deviation := (xsec_mean_mtt.sub ((p0.2.add p1.2).divC 2)).absF
          if tolerance.lt ((p1.2.sub p0.2).absF) || (tolerance.divC 2).lt deviation then
            refineF f tolerance fuel (p0 :: (mean_mtt, xsec_mean_mtt) :: p1 :: rest)
          else
            (refineF f tolerance fuel (p1 :: rest)).map (p0 :: ·)

/-- `build_xsec_grid` (spectrum.py lines 315-355) over float values. -/
def buildXsecGridF (f : ℚ → PFloat) (rel_tolerance var_scale : ℚ) (fuel : ℕ) :
    Option (List (ℚ × PFloat)) :=
  let mtt_values := linspace 340 2000 (numPoints var_scale)
  let pts := mtt_values.map (fun x => (x, f x))
  let tolerance := PFloat.mulC rel_tolerance
    ((pyMaxF (pts.map Prod.snd)).sub (pyMinF (pts.map Prod.snd)))
  refineF f tolerance fuel pts

/-- With a `nan` tolerance every acceptance test is `False`-on-both-sides,
so the loop accepts everything and returns its input unchanged. -/
theorem refineF_nan (f : ℚ → PFloat) :
    ∀ (fuel : ℕ) (l : List (ℚ × PFloat)), l.length ≤ fuel + 1 →
      refineF f PFloat.nan fuel l = some l := by
  intro fuel
  induction fuel with
  | zero =>
    intro l hlen
    match l with
    | [] => rfl
    | [p] => rfl
    | p0 :: p1 :: rest => simp at hlen
  | succ fuel ih =>
    intro l hlen
    match l with
    | [] => rfl
    | [p] => rfl
    | p0 :: p1 :: rest =>
      rw [refineF]
      have hcond : (PFloat.nan.lt ((p1.2.sub p0.2).absF)
          || (PFloat.nan.divC 2).lt
              (((f ((p0.1 + p1.1) / 2)).sub ((p0.2.add p1.2).divC 2)).absF)) = false := rfl
      rw [if_neg (by rw [hcond]; exact Bool.false_ne_true)]
      rw [ih (p1 :: rest) (by simp at hlen ⊢; omega)]
      rfl

/-- Membership invariant of the float refinement loop: every stored
sample value is the value of `f` at its abscissa. -/
theorem refineF_stored (f : ℚ → PFloat) (tolerance : PFloat) :
    ∀ (fuel : ℕ) (l out : List (ℚ × PFloat)), refineF f tolerance fuel l = some out →
      (∀ p ∈ l, p.2 = f p.1) → ∀ p ∈ out, p.2 = f p.1 := by
  intro fuel
  induction fuel with
  | zero =>
    intro l out h hl
    match l with
    | [] => simp [refineF] at h; subst h; simp
    | [p] => simp [refineF] at h; subst h; simpa using hl
    | p0 :: p1 :: rest => simp [refineF] at h
  | succ fuel ih =>
    intro l out h hl
    match l with
    | [] => simp [refineF] at h; subst h; simp
    | [p] => simp [refineF] at h; subst h; simpa using hl
    | p0 :: p1 :: rest =>
      rw [refineF] at h
      split at h
      · refine ih _ _ h ?_
        intro q hq
        rcases List.mem_cons.mp hq with hq | hq
        · rw [hq]
          exact hl p0 (by simp)
        · rcases List.mem_cons.mp hq with hq | hq
          · rw [hq]
          · exact hl q (List.mem_cons_of_mem p0 hq)
      · obtain ⟨out', hout', rfl⟩ := Option.map_eq_some'.mp h
        intro q hq
        rcases List.mem_cons.mp hq with hq | hq
        · rw [hq]
          exact hl p0 (by simp)
        · exact ih _ _ hout' (fun q' hq' => hl q' (List.mem_cons_of_mem p0 hq')) q hq

/-- C7 as amended (no finiteness check): every sample value the grid
builder stores in a returned grid is exactly the value the evaluated
function produced at that point — non-finite values included, with no
check or error. -/
theorem claim_C7_stored_as_is (f : ℚ → PFloat) (rel_tolerance var_scale : ℚ)
    (fuel : ℕ) (g : List (ℚ × PFloat)) (p : ℚ × PFloat)
    (h : buildXsecGridF f rel_tolerance var_scale fuel = some g) (hp : p ∈ g) :
    p.2 = f p.1 := by
  rw [buildXsecGridF] at h
  refine refineF_stored f _ fuel _ g h ?_ p hp
  intro q hq
  obtain ⟨x, -, rfl⟩ := List.mem_map.mp hq
  rfl

/-- The grid sampled from the constantly-`nan` function: the seed grid
with every value `nan`. -/
def nanGrid : List (ℚ × PFloat) :=
  (linspace 340 2000 (numPoints 1660)).map (fun x => (x, PFloat.nan))

theorem foldlMaxNan :
    ∀ (t : List PFloat),
      t.foldl (fun cur item => if cur.lt item then item else cur) PFloat.nan
        = PFloat.nan := by
  intro t
  induction t with
  | nil => rfl
  | cons a s ihs =>
    rw [List.foldl_cons,
      show (if PFloat.nan.lt a = true then a else PFloat.nan) = PFloat.nan from rfl]
    exact ihs

theorem foldlMinNan :
    ∀ (t : List PFloat),
      t.foldl (fun cur item => if item.lt cur then item else cur) PFloat.nan
        = PFloat.nan := by
  intro t
  induction t with
  | nil => rfl
  | cons a s ihs =>
    have ha : a.lt PFloat.nan = false := by cases a <;> rfl
    rw [List.foldl_cons, ha]
    simpa using ihs

theorem pyMaxF_nan_cons (t : List PFloat) : pyMaxF (PFloat.nan :: t) = PFloat.nan :=
  foldlMaxNan t

theorem pyMinF_nan_cons (t : List PFloat) : pyMinF (PFloat.nan :: t) = PFloat.nan :=
  foldlMinNan t

theorem buildNanEval :
    buildXsecGridF (fun _ => PFloat.nan) (5 / 1000) 1660 200 = some nanGrid := by
  have hh := linspace_head? 340 2000 (numPoints 1660) (by rw [numPoints_1660]; omega)
  have h2 : ∃ t, nanGrid.map Prod.snd = PFloat.nan :: t := by
    rw [nanGrid, List.map_map]
    match hl : linspace 340 2000 (numPoints 1660) with
    | [] => rw [hl] at hh; simp at hh
    | x :: xs => exact ⟨xs.map (Prod.snd ∘ fun x => (x, PFloat.nan)), rfl⟩
  obtain ⟨t, ht⟩ := h2
  have htol : PFloat.mulC (5 / 1000)
      ((pyMaxF (nanGrid.map Prod.snd)).sub (pyMinF (nanGrid.map Prod.snd)))
      = PFloat.nan := by
    rw [ht, pyMaxF_nan_cons, pyMinF_nan_cons]
    rfl
  calc buildXsecGridF (fun _ => PFloat.nan) (5 / 1000) 1660 200
      = refineF (fun _ => PFloat.nan)
          (PFloat.mulC (5 / 1000)
            ((pyMaxF (nanGrid.map Prod.snd)).sub (pyMinF (nanGrid.map Prod.snd))))
          200 nanGrid := rfl
    _ = refineF (fun _ => PFloat.nan) PFloat.nan 200 nanGrid := by rw [htol]
    _ = some nanGrid := refineF_nan _ 200 nanGrid
          (by rw [nanGrid, List.length_map, linspace_length, numPoints_1660]; omega)

/-- Counterexample to C7 as stated: on the constantly-`nan` cross section
the grid builder terminates normally (with `nan` tolerance every
acceptance test is vacuously passed), raises nothing, and the returned
grid contains the non-finite sample — silently stored.  (A
`DegenerateRange` failure is impossible too: the builder has no domain
parameter, its range being hardcoded as `(340., 2000.)`.) -/
theorem claim_C7_counterexample :
    buildXsecGridF (fun _ => PFloat.nan) (5 / 1000) 1660 200 = some nanGrid ∧
    PFloat.nan ∈ nanGrid.map Prod.snd := by
  refine ⟨buildNanEval, ?_⟩
  rw [nanGrid, List.map_map]
  have hh := linspace_head? 340 2000 (numPoints 1660) (by rw [numPoints_1660]; omega)
  match hl : linspace 340 2000 (numPoints 1660) with
  | [] => rw [hl] at hh; simp at hh
  | x :: xs => simp [Function.comp]

/-- Witness for the amended C7: a concrete stored sample of the
constantly-`nan` run. -/
theorem claim_C7_stored_as_is_witness :
    buildXsecGridF (fun _ => PFloat.nan) (5 / 1000) 1660 200 = some nanGrid ∧
    (340, PFloat.nan) ∈ nanGrid ∧ (340, PFloat.nan).2 = PFloat.nan := by
  have hmem : (340, PFloat.nan) ∈ nanGrid := by
    rw [nanGrid]
    apply List.mem_map.mpr
    refine ⟨340, ?_, rfl⟩
    have hh := linspace_head? 340 2000 (numPoints 1660) (by rw [numPoints_1660]; omega)
    match hl : linspace 340 2000 (numPoints 1660) with
    | [] => rw [hl] at hh; simp at hh
    | x :: xs =>
      rw [hl] at hh
      simp only [List.head?_cons, Option.some.injEq] at hh
      subst hh
      simp
  exact ⟨buildNanEval, hmem,
    claim_C7_stored_as_is (fun _ => PFloat.nan) (5 / 1000) 1660 200 nanGrid
      (340, PFloat.nan) buildNanEval hmem⟩

end Spectrum
